import Mathlib

/-!
Verification of the diagnostic print adapter `printLLVMError` from
`torchmlir_debugger.h`.

The C++ source is:

  template <typename printType>
  void printLLVMError(void (*func)(printType, MlirStringCallback, void *),
                      printType obj, std::string message) {
    std::stringstream ss;
    ss << message;
    auto stringCallback = [](MlirStringRef s, void *stringCallbackUserData) {
      auto *ssp = static_cast<std::stringstream *>(stringCallbackUserData);
      ssp->write(s.data, s.length);
    };
    func(obj, stringCallback, static_cast<void *>(&ss));
    llvm::errs() << ss.str() << "\n";
  }

Shallow embedding choices:
- Byte strings (`std::string`, stream contents) are lists of byte values
  (`List Nat`, each conceptually below 256; no claim depends on the bound).
- `MlirStringRef` is a pointer plus a length; the pointer is modelled by the
  byte sequence in memory starting at it (`data`), together with the
  explicit `length` field.  `ssp->write(s.data, s.length)` copies exactly
  `s.length` bytes from that memory, which is `s.data.take s.length`.
- The supplied printing function `func`, applied to the fixed object `obj`,
  is characterised by its observable interaction with the callback: the
  finite sequence of `MlirStringRef` chunks it passes to the callback, in
  order, before returning.  A printing-function/object pair is therefore
  embedded as `List MlirStringRef` (finiteness of the list is exactly the
  assumption that the callback is invoked finitely often).
- Effects are made explicit twice: `printLLVMErrorState` passes a process
  state (stderr and stdout byte streams) and `printLLVMErrorTrace` records
  the ordered events of one call (invoking `func`, each callback
  invocation, each write to `llvm::errs()`).
-/

/-- Embedding of `MlirStringRef`: `data` is the byte sequence in memory
starting at the `data` pointer, `length` the explicit chunk length. -/
structure MlirStringRef where
  data : List Nat
  length : Nat

/-- The bytes a chunk denotes: the first `length` bytes at the pointer.
This is what `ssp->write(s.data, s.length)` copies. -/
def chunkBytes (s : MlirStringRef) : List Nat :=
  s.data.take s.length

/-- The adapter lambda `stringCallback` of `printLLVMError`: it appends the
`s.length` bytes at `s.data` to the accumulator recovered from the
user-data pointer. -/
def stringCallback (s : MlirStringRef) (acc : List Nat) : List Nat :=
  acc ++ s.data.take s.length

/-- The call `func(obj, stringCallback, &ss)`: the printing function invokes
the adapter callback once per chunk, in order, mutating the accumulator. -/
def runPrintFunc (func : List MlirStringRef) (acc : List Nat) : List Nat :=
  func.foldl (fun a s => stringCallback s a) acc

/-- The byte written by `<< "\n"`. -/
def newlineByte : Nat := 10

/-- The bytes `printLLVMError` writes to `llvm::errs()`: the accumulator is
seeded with `message` (`ss << message`), filled by the printing function,
and emitted followed by a newline (`llvm::errs() << ss.str() << "\n"`). -/
def printLLVMError (func : List MlirStringRef) (message : List Nat) : List Nat :=
  runPrintFunc func message ++ [newlineByte]

/-- Process-wide stream state: the bytes written so far to the
error-diagnostic stream (`llvm::errs()`) and to standard output. -/
structure ProcState where
  errStream : List Nat
  outStream : List Nat

/-- A write to `llvm::errs()` appends to the error stream only. -/
def errsWrite (st : ProcState) (bytes : List Nat) : ProcState :=
  { st with errStream := st.errStream ++ bytes }

/-- State-passing embedding of `printLLVMError`: the function returns no
value; its effect on the process state is the single `llvm::errs()` write
of the accumulated text plus the newline. -/
def printLLVMErrorState (func : List MlirStringRef) (message : List Nat)
    (st : ProcState) : ProcState :=
  errsWrite st (printLLVMError func message)

/-- Observable events of one `printLLVMError` call. -/
inductive Event where
  | invokeFunc
  | callbackChunk (s : MlirStringRef)
  | writeErr (bytes : List Nat)

/-- Whether an event invokes the supplied printing function. -/
def Event.isInvoke : Event → Bool
  | .invokeFunc => true
  | _ => false

/-- Whether an event is a write to the error-diagnostic stream. -/
def Event.isWriteErr : Event → Bool
  | .writeErr _ => true
  | _ => false

/-- Event-trace embedding of one `printLLVMError` call: the printing
function is invoked, it drives the callback once per chunk while it runs,
and after it returns the accumulated text plus newline is written to
`llvm::errs()` in one write. -/
def printLLVMErrorTrace (func : List MlirStringRef) (message : List Nat) :
    List Event :=
  Event.invokeFunc :: (func.map Event.callbackChunk ++
    [Event.writeErr (printLLVMError func message)])

/-- The payloads of the writes to the error stream in a trace, in order. -/
def writeEvents (tr : List Event) : List (List Nat) :=
  tr.filterMap (fun e =>
    match e with
    | Event.writeErr bytes => some bytes
    | _ => none)

/-- Reading a chunk pointer as a C string would: bytes up to the first nul. -/
def takeUntilNul (bs : List Nat) : List Nat :=
  bs.takeWhile (fun b => b != 0)

/-- Number of lines in a byte string that ends with a newline: one line per
newline byte. -/
def lineCount (bs : List Nat) : Nat :=
  bs.count newlineByte

/-- Helper: running the printing function appends the concatenation of the
chunk bytes, in callback order, to the accumulator. -/
theorem runPrintFunc_eq (func : List MlirStringRef) (acc : List Nat) :
    runPrintFunc func acc = acc ++ (func.map chunkBytes).flatten := by
  induction func generalizing acc with
  | nil => simp [runPrintFunc]
  | cons s rest ih =>
      simp only [runPrintFunc, List.foldl_cons, List.map_cons,
        List.flatten_cons] at *
      rw [ih (stringCallback s acc)]
      simp [stringCallback, chunkBytes, List.append_assoc]

/-- Claim C1: for every message, object and printing function invoking the
callback with a finite chunk sequence, `printLLVMError` writes exactly the
message, then the concatenation of all chunk bytes in callback order, then
a single trailing newline. -/
theorem printLLVMError_output (func : List MlirStringRef) (message : List Nat) :
    printLLVMError func message =
      message ++ (func.map chunkBytes).flatten ++ [newlineByte] := by
  simp [printLLVMError, runPrintFunc_eq]

/-- Claim C2: for a printing function that never invokes the callback, the
output is the message plus a newline. -/
theorem printLLVMError_no_chunks (message : List Nat) :
    printLLVMError [] message = message ++ [newlineByte] := by
  simp [printLLVMError, runPrintFunc]

/-- Claim C3: the output is invariant under chunk boundaries: two printing
functions whose chunk byte sequences concatenate to the same byte string
produce identical output. -/
theorem printLLVMError_boundary_insensitive
    (f1 f2 : List MlirStringRef) (message : List Nat)
    (h : (f1.map chunkBytes).flatten = (f2.map chunkBytes).flatten) :
    printLLVMError f1 message = printLLVMError f2 message := by
  simp [printLLVMError, runPrintFunc_eq, h]

/-- Witness for C3 at the chunking of the spec example: chunks
["a", "b", "c"] versus the single chunk ["abc"], with message "E", give
the same output, namely message ++ "abc" ++ newline. -/
theorem printLLVMError_boundary_insensitive_witness :
    printLLVMError
        [⟨[97], 1⟩, ⟨[98], 1⟩, ⟨[99], 1⟩] [69] =
      printLLVMError [⟨[97, 98, 99], 3⟩] [69] ∧
    printLLVMError [⟨[97, 98, 99], 3⟩] [69] = [69, 97, 98, 99, 10] :=
  ⟨printLLVMError_boundary_insensitive
      [⟨[97], 1⟩, ⟨[98], 1⟩, ⟨[99], 1⟩] [⟨[97, 98, 99], 3⟩] [69] (by decide),
    by decide⟩

/-- Claim C4: every call of `printLLVMError` invokes the supplied printing
function exactly once: its trace contains exactly one invocation event. -/
theorem printLLVMError_invokes_func_once
    (func : List MlirStringRef) (message : List Nat) :
    (printLLVMErrorTrace func message).countP Event.isInvoke = 1 := by
  simp only [printLLVMErrorTrace, List.countP_cons, List.countP_append]
  have h1 : (func.map Event.callbackChunk).countP Event.isInvoke = 0 := by
    rw [List.countP_eq_zero]
    intro e he
    rcases List.mem_map.mp he with ⟨s, _, rfl⟩
    simp [Event.isInvoke]
  simp [h1, Event.isInvoke, List.countP_cons]

/-- Claim C5: the adapter callback copies each chunk by its explicit
length: it appends exactly the `s.length` bytes at the pointer, embedded
nul bytes included; when the copied bytes contain a nul, the result is not
the nul-terminated reading of the pointer. -/
theorem stringCallback_copies_by_length (s : MlirStringRef) (acc : List Nat)
    (h : s.length ≤ s.data.length) :
    stringCallback s acc = acc ++ chunkBytes s ∧
    (chunkBytes s).length = s.length ∧
    (0 ∈ chunkBytes s → stringCallback s acc ≠ acc ++ takeUntilNul s.data) := by
  refine ⟨rfl, by simp [chunkBytes, h], ?_⟩
  intro h0 heq
  have hbytes : chunkBytes s = takeUntilNul s.data :=
    List.append_cancel_left heq
  rw [hbytes] at h0
  have := List.mem_takeWhile_imp h0
  simp at this

/-- Witness for C5: a 3-byte chunk with an embedded nul byte ("A\0B") is
appended in full, all 3 bytes including the 0x00, and differs from the
nul-terminated reading of the same pointer. -/
theorem stringCallback_copies_by_length_witness :
    stringCallback ⟨[65, 0, 66], 3⟩ [] = [] ++ chunkBytes ⟨[65, 0, 66], 3⟩ ∧
    (chunkBytes ⟨[65, 0, 66], 3⟩).length = 3 ∧
    (0 ∈ chunkBytes ⟨[65, 0, 66], 3⟩ →
      stringCallback ⟨[65, 0, 66], 3⟩ [] ≠
        [] ++ takeUntilNul [65, 0, 66]) :=
  stringCallback_copies_by_length ⟨[65, 0, 66], 3⟩ [] (by decide)

/-- Counterexample to C6 as stated: a chunk whose bytes contain a newline
makes the single `llvm::errs()` write span more than one line: with an
empty message and one chunk equal to "\n", the output is two newline
bytes, two lines rather than exactly one. -/
theorem printLLVMError_one_line_counterexample :
    lineCount (printLLVMError [⟨[10], 1⟩] []) ≠ 1 := by
  decide

/-- Claim C6 (amended): every invocation writes its output to the process
error-diagnostic stream, and the output is exactly one line provided
neither the message nor any chunk bytes contain a newline byte. -/
theorem printLLVMError_writes_stderr_one_line
    (func : List MlirStringRef) (message : List Nat) (st : ProcState)
    (hmsg : newlineByte ∉ message)
    (hchunks : ∀ s ∈ func, newlineByte ∉ chunkBytes s) :
    (printLLVMErrorState func message st).errStream =
      st.errStream ++ printLLVMError func message ∧
    lineCount (printLLVMError func message) = 1 := by
  refine ⟨rfl, ?_⟩
  have hflat : newlineByte ∉ (func.map chunkBytes).flatten := by
    intro hmem
    rcases List.mem_flatten.mp hmem with ⟨l, hl, hin⟩
    rcases List.mem_map.mp hl with ⟨s, hs, rfl⟩
    exact hchunks s hs hin
  simp [lineCount, printLLVMError, runPrintFunc_eq, List.count_append,
    List.count_eq_zero.mpr hmsg, List.count_eq_zero.mpr hflat]

/-- Witness for C6 (amended): with message "E", one chunk "a" and empty
streams, the error stream receives exactly the output and the output is
one line. -/
theorem printLLVMError_writes_stderr_one_line_witness :
    (printLLVMErrorState [⟨[97], 1⟩] [69] ⟨[], []⟩).errStream =
      [] ++ printLLVMError [⟨[97], 1⟩] [69] ∧
    lineCount (printLLVMError [⟨[97], 1⟩] [69]) = 1 :=
  printLLVMError_writes_stderr_one_line [⟨[97], 1⟩] [69] ⟨[], []⟩
    (by decide) (by decide)

/-- Claim C7: `printLLVMError` returns no value (the state embedding
returns only the new process state) and its only externally visible effect
is appending its output to the error-diagnostic stream: standard output is
unchanged, as are the caller-supplied message and chunks, which the call
only reads. -/
theorem printLLVMError_frame (func : List MlirStringRef) (message : List Nat)
    (st : ProcState) :
    (printLLVMErrorState func message st).errStream =
      st.errStream ++ printLLVMError func message ∧
    (printLLVMErrorState func message st).outStream = st.outStream := by
  exact ⟨rfl, rfl⟩

/-- Claim C8: when the printing function terminates after finitely many
callback invocations (the chunk list), the whole call terminates: its
trace is finite, of length two more than the number of chunks, and its
last event is the completed write of the output. -/
theorem printLLVMError_terminates (func : List MlirStringRef)
    (message : List Nat) :
    (printLLVMErrorTrace func message).length = func.length + 2 ∧
    (printLLVMErrorTrace func message).getLast? =
      some (Event.writeErr (printLLVMError func message)) := by
  constructor
  · simp [printLLVMErrorTrace]
  · rw [printLLVMErrorTrace, ← List.cons_append, List.getLast?_concat]

/-- Claim C9: `printLLVMError` is deterministic in its inputs: two calls
with the same message whose printing functions emit the same sequence of
chunk byte strings write byte-for-byte identical output. -/
theorem printLLVMError_deterministic
    (f1 f2 : List MlirStringRef) (m1 m2 : List Nat)
    (hm : m1 = m2) (hf : f1.map chunkBytes = f2.map chunkBytes) :
    printLLVMError f1 m1 = printLLVMError f2 m2 := by
  simp [printLLVMError, runPrintFunc_eq, hm, hf]

/-- Witness for C9: two runs with the same message "E" and the same chunk
byte string "ab", read from differently sized memory regions, write the
same bytes. -/
theorem printLLVMError_deterministic_witness :
    printLLVMError [⟨[97, 98], 2⟩] [69] =
      printLLVMError [⟨[97, 98, 99], 2⟩] [69] :=
  printLLVMError_deterministic [⟨[97, 98], 2⟩] [⟨[97, 98, 99], 2⟩]
    [69] [69] rfl (by decide)

/-- Claim C10: nothing is emitted before the printing function returns:
no event before the last one is a write to the error stream, and the
writes of the whole call are exactly one flush of the full accumulated
text (message, chunk bytes, newline). -/
theorem printLLVMError_single_flush (func : List MlirStringRef)
    (message : List Nat) :
    (∀ e ∈ (printLLVMErrorTrace func message).dropLast,
      e.isWriteErr = false) ∧
    writeEvents (printLLVMErrorTrace func message) =
      [message ++ (func.map chunkBytes).flatten ++ [newlineByte]] := by
  constructor
  · intro e he
    rw [printLLVMErrorTrace, ← List.cons_append, List.dropLast_concat] at he
    rcases List.mem_cons.mp he with rfl | hmap
    · rfl
    · rcases List.mem_map.mp hmap with ⟨s, _, rfl⟩
      rfl
  · have hmap : (func.map Event.callbackChunk).filterMap (fun e =>
        match e with
        | Event.writeErr bytes => some bytes
        | _ => none) = [] := by
      rw [List.filterMap_eq_nil_iff]
      intro e he
      rcases List.mem_map.mp he with ⟨s, _, rfl⟩
      rfl
    simp [writeEvents, printLLVMErrorTrace, List.filterMap_cons,
      List.filterMap_append, hmap, printLLVMError, runPrintFunc_eq]
